import Mathlib

set_option linter.unusedSectionVars false

/-!
Verification development for the `terndata.flux` client library.

The definitions below are shallow embeddings of the Python sources
`src/terndata.flux/utils.py`, `src/terndata.flux/export_utils.py` and
`src/terndata/flux/flux_api.py`:

* timestamps are modelled as natural numbers counting minutes since
  year 0 of the proleptic Gregorian calendar (the exporter works at
  minute granularity), or as integers of millisecond precision where
  second-truncation matters (`get_subset` time slicing);
* numeric data values are modelled as rationals (the claims under
  check do not depend on binary floating-point rounding);
* Python string operations are modelled over character lists;
* network, file-system and external-library effects are modelled as
  explicit `Except` values and effect logs passed to the functions.

Definitions come first, then the supporting lemmas, then one theorem per
claim (with its witness or counterexample).
-/

namespace TernFlux

/-! ## Definitions -/


/-- Gregorian leap-year test, as used by Python's `datetime` module. -/
def isLeap (y : Nat) : Bool :=
  (y % 4 == 0 && y % 100 != 0) || (y % 400 == 0)

/-- Number of days in calendar year `y`. -/
def daysInYear (y : Nat) : Nat := if isLeap y then 366 else 365

/-- Number of leap years in `[0, y)` (year 0 counts as a leap year). -/
def leapsBefore (y : Nat) : Nat := (y + 3) / 4 - (y + 99) / 100 + (y + 399) / 400

/-- Minutes elapsed from the start of year 0 to the start of year `y`. -/
def yearStart (y : Nat) : Nat := 1440 * (365 * y + leapsBefore y)

/-- Calendar year containing the minute instant `m`
(inverse of `yearStart`; models `datetime.year`). -/
def yearOf (m : Nat) : Nat :=
  ((List.range (m / 525600 + 2)).filter (fun y => decide (yearStart (y + 1) ≤ m))).length

/-- `perdelta start e delta`: the timestamps `start, start+delta, ...` up to `e`
inclusive, as generated by the Python `perdelta` generator (guarded to positive
steps; the source is only ever called with 30- or 60-minute steps). -/
def perdelta (start e delta : Nat) : List Nat :=
  if _h : 0 < delta ∧ start ≤ e then start :: perdelta (start + delta) e delta else []
termination_by e + delta - start
decreasing_by omega

/-- `numpy.searchsorted(xs, v, side="left")` on a sorted array: the number of
elements strictly below `v`. -/
def ssLeft {α : Type} [LinearOrder α] [Inhabited α] (xs : List α) (v : α) : Nat := xs.countP (fun x => decide (x < v))

/-- `numpy.searchsorted(xs, v, side="right")` on a sorted array: the number of
elements not above `v`. -/
def ssRight {α : Type} [LinearOrder α] [Inhabited α] (xs : List α) (v : α) : Nat := xs.countP (fun x => decide (x ≤ v))

/-- Insert index `i` into an index list ordered by `key` (helper of the
sorting used to model `numpy.argsort`). -/
def insertOrd {α : Type} [LinearOrder α] [Inhabited α] (key : Nat → α) (i : Nat) : List Nat → List Nat
  | [] => [i]
  | j :: rest => if key i ≤ key j then i :: j :: rest else j :: insertOrd key i rest

/-- Sort an index list by `key` (insertion sort). -/
def sortIdx {α : Type} [LinearOrder α] [Inhabited α] (key : Nat → α) : List Nat → List Nat
  | [] => []
  | i :: rest => insertOrd key i (sortIdx key rest)

/-- `numpy.argsort xs`: a permutation of `[0, ..., xs.length)` that sorts `xs`. -/
def argsort {α : Type} [LinearOrder α] [Inhabited α] (xs : List α) : List Nat :=
  sortIdx (fun i => xs.getD i default) (List.range xs.length)

/-- `xs[numpy.argsort(xs)]`: the array rearranged into sorted order. -/
def sortedBy {α : Type} [LinearOrder α] [Inhabited α] (xs : List α) : List α := (argsort xs).map (fun i => xs.getD i default)

/-- `FindMatchingIndices a b` from `export_utils.py`: indices (into the sorted
orders of `a` and `b`) of the elements each array shares with the other,
computed by argsort plus left/right boundary search (`nonzero` of
`searchsorted(..., "right") - searchsorted(..., "left") > 0`). -/
def FindMatchingIndices {α : Type} [LinearOrder α] [Inhabited α] (a b : List α) : List Nat × List Nat :=
  ((List.range (sortedBy a).length).filter
     (fun j => decide (ssLeft (sortedBy b) ((sortedBy a).getD j default) <
       ssRight (sortedBy b) ((sortedBy a).getD j default))),
   (List.range (sortedBy b).length).filter
     (fun j => decide (ssLeft (sortedBy a) ((sortedBy b).getD j default) <
       ssRight (sortedBy a) ((sortedBy b).getD j default))))

/-- `xs[idx]` for an index array `idx` (numpy fancy indexing). -/
def gatherIdx {β : Type} [Inhabited β] (xs : List β) (idx : List Nat) : List β :=
  idx.map (fun i => xs.getD i default)

/-- `base[idx] = vals` (numpy fancy assignment), performed element by element. -/
def scatterIdx {β : Type} : List β → List Nat → List β → List β
  | base, i :: is, v :: vs => scatterIdx (base.set i v) is vs
  | base, _, _ => base

/-- Python's `round` on a rational value: nearest integer, ties to even. -/
def pyRound (q : ℚ) : ℤ :=
  if q - q.floor < 1/2 then q.floor
  else if (1 : ℚ)/2 < q - q.floor then q.floor + 1
  else if q.floor % 2 == 0 then q.floor else q.floor + 1

/-- Pad a digit string with leading zeros to width `k`. -/
def padZeros (k : Nat) (s : String) : String :=
  String.mk (List.replicate (k - s.length) '0') ++ s

/-- Numeric format of one OneFlux output column: integer
(Python format spec `d` after `int(round(.))`) or fixed-point with `k`
decimals (format spec `.kf`). -/
inductive NumFmt where
  | int : NumFmt
  | fixed : Nat → NumFmt
deriving DecidableEq

/-- Fixed-point rendering with `k` decimals of a rational value
(models `"{0:.kf}".format(v)`). -/
def fmtFixed (k : Nat) (q : ℚ) : String :=
  let n := pyRound (q * (10 ^ k : ℕ))
  let a := n.natAbs
  (if n < 0 then "-" else "") ++ toString (a / 10 ^ k) ++ "." ++
    padZeros k (toString (a % 10 ^ k))

/-- Formatting of one data cell, as in the row-writing loop of
`write_csv_oneflux_year`: integer formats go through `int(round(value))`,
the others through the fixed-decimal format string. -/
def fmtCell : NumFmt → ℚ → String
  | .int, q => toString (pyRound q)
  | .fixed k, q => fmtFixed k q

/-- One entry of `ONEFLUX_VARIABLES_CFG`: source variable name, output format,
units, output column label. -/
structure OFVar where
  name : String
  fmt : NumFmt
  units : String
  outName : String
deriving DecidableEq

/-- `ONEFLUX_VARIABLES_CFG` from `export_utils.py`, in source order. -/
def ONEFLUX_VARIABLES_CFG : List OFVar :=
  [⟨"CO2", .fixed 3, "umol/mol", "CO2"⟩,
   ⟨"Fco2", .fixed 4, "umol/m^2/s", "FC"⟩,
   ⟨"Fg", .int, "W/m^2", "G"⟩,
   ⟨"Fh", .int, "W/m^2", "H"⟩,
   ⟨"H2O", .fixed 2, "mmol/mol", "H2O"⟩,
   ⟨"Fe", .int, "W/m^2", "LE"⟩,
   ⟨"Fld", .int, "W/m^2", "LW_IN"⟩,
   ⟨"Flu", .int, "W/m^2", "LW_OUT"⟩,
   ⟨"Fn", .int, "W/m^2", "NETRAD"⟩,
   ⟨"Precip", .fixed 1, "mm", "P"⟩,
   ⟨"ps", .fixed 1, "kPa", "PA"⟩,
   ⟨"RH", .int, "percent", "RH"⟩,
   ⟨"Sws", .fixed 3, "m^3/m^3", "SWC_1"⟩,
   ⟨"Fsd", .int, "W/m^2", "SW_IN"⟩,
   ⟨"Fsu", .int, "W/m^2", "SW_OUT"⟩,
   ⟨"Ta", .fixed 2, "degC", "TA"⟩,
   ⟨"Ts", .fixed 2, "degC", "TS_1"⟩,
   ⟨"ustar", .fixed 2, "m/s", "USTAR"⟩,
   ⟨"VPD", .fixed 3, "hPa", "VPD"⟩,
   ⟨"Wd", .int, "degrees", "WD"⟩,
   ⟨"Ws", .fixed 2, "m/s", "WS"⟩]

/-- `FLUX_MISSING_VALUE` from `export_utils.py`. -/
def FLUX_MISSING_VALUE : ℚ := -9999

/-- The dataset as seen by the exporter: its time coordinate (minutes since
year 0), the names of the variables it contains, the per-variable value
series (the `[i][0][0]` scalars), and the declared nominal time step. -/
structure FluxDS where
  times : List Nat
  varNames : List String
  data : String → List ℚ
  time_step : Nat

/-- The whitelisted variables present in the dataset, in configuration order
(`variables = [v for v in ONEFLUX_VARIABLES_CFG if v in ds.variables]`). -/
def onefluxVars (ds : FluxDS) : List OFVar :=
  ONEFLUX_VARIABLES_CFG.filter (fun c => ds.varNames.contains c.name)

/-- The full-year grid for `year` at step `m` minutes: from `Jan 1 00:00 + m`
through `Jan 1 00:00` of the next year inclusive. -/
def onefluxGrid (year m : Nat) : List Nat :=
  perdelta (yearStart year + m) (yearStart (year + 1)) m

/-- The per-variable full-year array: prefill with the sentinel, then
overwrite the matched grid positions `a1` with the dataset values at the
matched dataset positions `b1`; `VPD` is divided by 10 (kPa to hPa) during
the copy, every other variable is copied unchanged. -/
def fillYear (var : String) (nrecs : Nat) (a1 b1 : List Nat) (src : List ℚ) : List ℚ :=
  if var = "VPD" then
    scatterIdx (List.replicate nrecs FLUX_MISSING_VALUE) a1
      ((gatherIdx src b1).map (fun x => x / 10))
  else
    scatterIdx (List.replicate nrecs FLUX_MISSING_VALUE) a1 (gatherIdx src b1)

/-- The data rows written by `write_csv_oneflux_year` for one year: one row
per grid timestep, holding the start/end timestamps (modelled by their minute
instants; the source renders them as `YYYYMMDDHHMM`) followed by one
formatted cell per whitelisted variable. -/
def write_csv_oneflux_year (ds : FluxDS) (year : Nat) : List (List String) :=
  (List.range (onefluxGrid year ds.time_step).length).map (fun n =>
    [toString ((onefluxGrid year ds.time_step).getD n 0 - ds.time_step),
     toString ((onefluxGrid year ds.time_step).getD n 0)] ++
      (onefluxVars ds).map (fun c =>
        fmtCell c.fmt ((fillYear c.name (onefluxGrid year ds.time_step).length
          (FindMatchingIndices (onefluxGrid year ds.time_step) ds.times).1
          (FindMatchingIndices (onefluxGrid year ds.time_step) ds.times).2
          (ds.data c.name)).getD n 0)))

/-- The years spanned by `(first timestamp - step)` through
`(last timestamp - step)`, as computed by `write_csv_oneflux`
(`range(start_year, end_year + 1)`). -/
def onefluxYears (ds : FluxDS) : List Nat :=
  List.range' (yearOf (ds.times.headD 0 - ds.time_step))
    (yearOf (ds.times.getLastD 0 - ds.time_step) + 1 -
      yearOf (ds.times.headD 0 - ds.time_step))

/-- `write_csv_oneflux`: one output file per spanned year, in year order;
each file is modelled by its year together with its data rows. -/
def write_csv_oneflux (ds : FluxDS) : List (Nat × List (List String)) :=
  (onefluxYears ds).map (fun y => (y, write_csv_oneflux_year ds y))

/-- `s + t` on strings (Python string concatenation). -/
def strCat (s t : String) : String := String.mk (s.data ++ t.data)

/-- `s.endswith(t)` (Python). -/
def strEndsWith (s t : String) : Bool :=
  decide (s.data.drop (s.data.length - t.data.length) = t.data)

/-- `s.startswith(t)` (Python). -/
def strStartsWith (s t : String) : Bool :=
  decide (s.data.take t.data.length = t.data)

/-- `s.split(c)` (Python `str.split` with a one-character separator). -/
def splitOnChar (c : Char) : List Char → List (List Char)
  | [] => [[]]
  | x :: xs =>
    match splitOnChar c xs with
    | [] => [[]]
    | y :: ys => if x = c then [] :: y :: ys else (x :: y) :: ys

/-- `pat in s` (Python substring containment). -/
def hasSubstr (s pat : List Char) : Bool :=
  match s with
  | [] => decide (pat = [])
  | _ :: rest => decide (s.take pat.length = pat) || hasSubstr rest pat

/-- `DEFAULT_DATASET` from `utils.py`. -/
def DEFAULT_DATASET : String := "30min"

/-- The temporal-aggregation labels recognized in dataset filenames. -/
def AGG_LABELS : List String := ["daily", "monthly", "annual", "cumulative", "summary"]

/-- `name[:-3].split("_")`: the underscore-separated segments of the filename
with its three-character extension removed. -/
def stemParts (name : String) : List (List Char) :=
  splitOnChar '_' (name.data.take (name.data.length - 3))

/-- `parts[-1].lower()`: the lowercased last segment of the filename stem. -/
def lastLower (name : String) : String :=
  String.mk (((stemParts name).getLastD []).map Char.toLower)

/-- The mapping key `get_catalog_items` derives for one terminal `dataset`
catalog entry with filename `name`: `none` when the filename does not end in
`.nc` (the entry is skipped), otherwise the dataset-type label
(`name[:-3].split("_")`, defaulting unless there are at least three segments
and the lowercased last segment is a recognized label). -/
def dataset_key (name : String) : Option String :=
  if strEndsWith name ".nc" then
    if (stemParts name).length ≥ 3 ∧ lastLower name ∈ AGG_LABELS then
      some (lastLower name)
    else some DEFAULT_DATASET
  else
    none

/-- The key-derivation rule as the specification claim states it (split on
underscore, use the last segment's lowercase form whenever it matches a
recognized label) — without the source's extra requirement of at least three
underscore-separated segments. -/
def dataset_key_spec (name : String) : Option String :=
  if strEndsWith name ".nc" then
    if lastLower name ∈ AGG_LABELS then some (lastLower name)
    else some DEFAULT_DATASET
  else
    none

/-- `"_QCFlag" in var` (Python substring test used by `get_subset`). -/
def isQCname (v : String) : Bool := hasSubstr v.data "_QCFlag".data

/-- The error message raised by `get_subset` for an unknown variable. -/
def subsetNotFoundMsg (site v : String) : String :=
  strCat (strCat (strCat (strCat "Error: fail to get subset for site \x27" site)
    "\x27: variable \x27") v) "\x27 not found"

/-- The variable-selection step of `get_subset`: check every requested name,
failing on the first unknown one; with `keep_qcflags`, append the existing
paired `<base>_QCFlag` of every requested non-QC variable; select the
resulting names from the dataset (set semantics, modelled by `dedup`).
`variables = None` and `variables = []` (falsy in Python) select everything. -/
def subsetSelect (site : String) (dsVars : List String)
    (variables_ : Option (List String)) (keep_qcflags : Bool) :
    Except String (List String) :=
  match variables_ with
  | Option.none => .ok dsVars
  | some vs =>
    if vs.isEmpty then .ok dsVars
    else
      match vs.find? (fun v => !(dsVars.contains v)) with
      | some v => .error (subsetNotFoundMsg site v)
      | Option.none =>
        let qcFlags :=
          if keep_qcflags then
            vs.filterMap (fun v =>
              if isQCname v then Option.none
              else if dsVars.contains (strCat v "_QCFlag") then
                some (strCat v "_QCFlag")
              else Option.none)
          else []
        .ok ((vs ++ qcFlags).dedup)

/-- A `start`/`end` argument of `get_subset`: absent, an ISO string, or an
already-parsed timestamp (Python `datetime`). Timestamps are integers at
millisecond precision. -/
inductive TBound where
  | none : TBound
  | str : String → TBound
  | dt : Int → TBound

/-- Python truthiness of a `start`/`end` argument (`if start or end:`). -/
def tbTruthy : TBound → Bool
  | .none => false
  | .str s => !(s.data.isEmpty)
  | .dt _ => true

/-- Truncation of a timestamp to second precision
(`str(...)[:19]` on the dataset's first/last time coordinate). -/
def truncSec (t : Int) : Int := t - t.emod 1000

/-- Resolution of the `start` bound: default to the dataset's first timestamp
truncated to seconds; validate ISO strings through the external parser
(models `is_isoformat` / the label parser of `.sel`). -/
def resolveStart (parse : String → Option Int) (times : List Int) :
    TBound → Except String Int
  | .none => .ok (truncSec (times.headD 0))
  | .str s =>
    match parse s with
    | some t => .ok t
    | Option.none => .error (strCat "Invalid ISO-format start time " s)
  | .dt t => .ok t

/-- Resolution of the `end` bound (defaults to the last timestamp). -/
def resolveEnd (parse : String → Option Int) (times : List Int) :
    TBound → Except String Int
  | .none => .ok (truncSec (times.getLastD 0))
  | .str s =>
    match parse s with
    | some t => .ok t
    | Option.none => .error (strCat "Invalid ISO-format end time " s)
  | .dt t => .ok t

/-- The time-slicing step of `get_subset`: when either bound is truthy,
resolve both bounds (start first, as in the source) and keep the closed
interval `[start, end]` of the time axis (`dataset.sel(time=slice(start,
end))`, label slicing being inclusive on both ends). -/
def sliceTimes (parse : String → Option Int) (times : List Int) (s e : TBound) :
    Except String (List Int) :=
  if tbTruthy s || tbTruthy e then
    match resolveStart parse times s with
    | .error m => .error m
    | .ok sv =>
      match resolveEnd parse times e with
      | .error m => .error m
      | .ok ev => .ok (times.filter (fun t => decide (sv ≤ t) && decide (t ≤ ev)))
  else .ok times

/-- `get_subset` (with the dataset already fetched): variable selection, then
time slicing; the result is the selected variable set together with the
sliced time axis. -/
def get_subset (site : String) (dsVars : List String) (times : List Int)
    (parse : String → Option Int) (variables_ : Option (List String))
    (s e : TBound) (keep_qcflags : Bool) :
    Except String (List String × List Int) :=
  match subsetSelect site dsVars variables_ keep_qcflags with
  | .error m => .error m
  | .ok sel =>
    match sliceTimes parse times s e with
    | .error m => .error m
    | .ok ts => .ok (sel, ts)

/-- `max(...)` over version labels (lexicographically maximal string). -/
def lexMax (l : List String) : String :=
  l.foldl (fun a b => if a < b then b else a) ""

/-- Effects (network / filesystem operations) an exporter may attempt,
in the order it attempts them. -/
inductive ExpAction where
  | makedirs : ExpAction
  | fetchVersions : ExpAction
  | openDataset : ExpAction
  | writeOut : ExpAction
deriving DecidableEq

/-- Environment for `export_as_excel`: outcome of the version fetch, the
dataset open, and the workbook write. -/
structure ExcelEnv where
  fetchVersions : Except String (List String)
  openDataset : Except String Unit
  writeWorkbook : Except String Unit

/-- Error prefix wrapped around failures inside the `try` block of
`export_as_excel`. -/
def excelWrap (m : String) : String :=
  strCat "Export dataset as Excel Workbook failed: " m

/-- `export_as_excel`: the extension check and the latest-version lookup
happen before the `try` block (their failures propagate as raised); the
dataset fetch and the workbook write run inside it and their failures are
wrapped by `excelWrap`. -/
def export_as_excel (env : ExcelEnv) (filename site : String)
    (version : Option String) : Except String String :=
  if !(strEndsWith filename ".xlsx") then
    .error (strCat (strCat "Filename " filename)
      " has invalid excel extension: must end with \x27.xlsx\x27.")
  else
    match (match version with
           | some v => Except.ok v
           | Option.none => env.fetchVersions.map lexMax) with
    | .error m => .error m
    | .ok _ =>
      match (match env.openDataset with
             | .error m => Except.error m
             | .ok _ => env.writeWorkbook) with
      | .ok _ => .ok filename
      | .error m => .error (excelWrap m)

/-- Environment for `export_oneflux_csv`. -/
structure OneFluxEnv where
  makedirs : Except String Unit
  fetchVersions : Except String (List String)
  openDataset : Except String Unit
  writeOneflux : Except String (List String)

/-- Error prefix wrapped around every failure of `export_oneflux_csv`
(its whole body sits inside one `try` block). -/
def onefluxWrap (m : String) : String :=
  strCat "Export dataset in oneflux format failed: " m

/-- `export_oneflux_csv`: processing-level whitelist check first, then output
directory creation, version resolution (only when no version was given),
dataset open and CSV writing; each step is logged when attempted and any
failure is wrapped by `onefluxWrap`. -/
def export_oneflux_csv (env : OneFluxEnv) (outdir site : String)
    (version : Option String) (processing_level : String) :
    Except String (List String) × List ExpAction :=
  if processing_level ∉ (["L3", "L4"] : List String) then
    (.error (onefluxWrap (strCat (strCat "Invalid processing level " processing_level)
      ": only available for L3 or L4.")), [])
  else
    match env.makedirs with
    | .error m => (.error (onefluxWrap m), [.makedirs])
    | .ok _ =>
      match (match version with
             | some v => (Except.ok v, ([] : List ExpAction))
             | Option.none => (env.fetchVersions.map lexMax, [.fetchVersions])) with
      | (.error m, lg) => (.error (onefluxWrap m), .makedirs :: lg)
      | (.ok _, lg) =>
        match env.openDataset with
        | .error m => (.error (onefluxWrap m), .makedirs :: lg ++ [.openDataset])
        | .ok _ =>
          match env.writeOneflux with
          | .error m =>
            (.error (onefluxWrap m), .makedirs :: lg ++ [.openDataset, .writeOut])
          | .ok files =>
            (.ok files, .makedirs :: lg ++ [.openDataset, .writeOut])

/-- C1 (counterexample): a dataset whose single timestamp is exactly
`Jan 1 00:00` of the non-leap year 2007 — so its coverage lies within 2007 —
makes `write_csv_oneflux` emit one file for year 2006 and none for 2007,
because the exporter first steps every timestamp back by one 30-minute
interval. -/
def c1CexDS : FluxDS := ⟨[yearStart 2007], ["Ta"], fun _ => [20], 30⟩

/-! ## Supporting lemmas -/

set_option maxHeartbeats 1600000 in
theorem leapsBefore_succ (y : Nat) :
    leapsBefore (y + 1) = leapsBefore y + (if isLeap y then 1 else 0) := by
  unfold leapsBefore isLeap
  rcases eq_or_ne (y % 4) 0 with h4 | h4 <;>
    rcases eq_or_ne (y % 100) 0 with h100 | h100 <;>
      rcases eq_or_ne (y % 400) 0 with h400 | h400 <;>
        simp [h4, h100, h400] <;> omega

theorem yearStart_succ (y : Nat) :
    yearStart (y + 1) = yearStart y + 1440 * daysInYear y := by
  unfold yearStart daysInYear
  rw [leapsBefore_succ]
  by_cases h : isLeap y <;> simp [h] <;> ring

theorem yearStart_lt_succ (y : Nat) : yearStart y < yearStart (y + 1) := by
  rw [yearStart_succ]
  unfold daysInYear
  by_cases h : isLeap y <;> simp [h]

theorem yearStart_strictMono : StrictMono yearStart :=
  strictMono_nat_of_lt_succ yearStart_lt_succ

theorem yearStart_le_of_le {y₁ y₂ : Nat} (h : y₁ ≤ y₂) : yearStart y₁ ≤ yearStart y₂ :=
  yearStart_strictMono.monotone h

theorem le_mul_yearStart (y : Nat) : 525600 * y ≤ yearStart y := by
  induction y with
  | zero => simp [yearStart, leapsBefore]
  | succ n ih =>
    rw [yearStart_succ]
    have : 525600 ≤ 1440 * daysInYear n := by
      unfold daysInYear; by_cases h : isLeap n <;> simp [h]
    omega

theorem filter_range_lt_length (N y : Nat) :
    ((List.range N).filter (fun a => decide (a < y))).length = min y N := by
  induction N with
  | zero => simp
  | succ n ih =>
    rw [List.range_succ, List.filter_append, List.length_append, ih]
    by_cases h : n < y <;> simp [h] <;> omega

theorem yearOf_spec {y m : Nat} (h₁ : yearStart y ≤ m) (h₂ : m < yearStart (y + 1)) :
    yearOf m = y := by
  unfold yearOf
  have hcong : ∀ a ∈ List.range (m / 525600 + 2),
      (fun a => decide (yearStart (a + 1) ≤ m)) a = (fun a => decide (a < y)) a := by
    intro a _
    simp only [decide_eq_decide]
    constructor
    · intro hle
      by_contra hnot
      have hy : y ≤ a := by omega
      have : yearStart (y + 1) ≤ yearStart (a + 1) := yearStart_le_of_le (by omega)
      omega
    · intro hlt
      have : yearStart (a + 1) ≤ yearStart y := yearStart_le_of_le (by omega)
      omega
  rw [List.filter_congr hcong, filter_range_lt_length]
  have hy : 525600 * y ≤ m := le_trans (le_mul_yearStart y) h₁
  have : y ≤ m / 525600 := (Nat.le_div_iff_mul_le (by norm_num)).mpr (by omega)
  omega

theorem cons_map_range_shift (c d K : Nat) :
    c :: (List.range K).map (fun k => c + d + d * k) =
      (List.range (K + 1)).map (fun k => c + d * k) := by
  induction K with
  | zero => simp [List.range_succ]
  | succ n ih =>
    have hg : c + d + d * n = c + d * (n + 1) := by ring
    calc c :: (List.range (n + 1)).map (fun k => c + d + d * k)
        = (c :: (List.range n).map (fun k => c + d + d * k)) ++ [c + d + d * n] := by
          rw [List.range_succ, List.map_append]; simp
      _ = (List.range (n + 1)).map (fun k => c + d * k) ++ [c + d * (n + 1)] := by
          rw [ih]
          exact congrArg (fun x => (List.range (n + 1)).map (fun k => c + d * k) ++ [x]) hg
      _ = (List.range (n + 1 + 1)).map (fun k => c + d * k) := by
          conv_rhs => rw [List.range_succ]
          rw [List.map_append]; simp

theorem perdelta_eq_map_range_aux (delta : Nat) (hd : 0 < delta) :
    ∀ n start e, e - start = n → start ≤ e →
      perdelta start e delta =
        (List.range ((e - start) / delta + 1)).map (fun k => start + delta * k) := by
  intro n
  induction n using Nat.strong_induction_on with
  | _ n ih =>
    intro start e hn hse
    rw [perdelta, dif_pos ⟨hd, hse⟩]
    rcases lt_or_ge e (start + delta) with hlt | hge
    · have hz : (e - start) / delta = 0 := Nat.div_eq_of_lt (by omega)
      have : perdelta (start + delta) e delta = [] := by
        rw [perdelta, dif_neg]; omega
      rw [this, hz]
      simp [List.range_succ]
    · have hrec : e - (start + delta) < n := by omega
      have := ih (e - (start + delta)) hrec (start + delta) e rfl (by omega)
      rw [this]
      have hdiv : (e - start) / delta = (e - (start + delta)) / delta + 1 := by
        have h1 : e - start = (e - (start + delta)) + delta := by omega
        rw [h1, Nat.add_div_right _ hd]
      rw [hdiv]
      exact cons_map_range_shift start delta ((e - (start + delta)) / delta + 1)

theorem perdelta_eq_map_range (delta : Nat) (hd : 0 < delta) (start e : Nat)
    (hse : start ≤ e) :
    perdelta start e delta =
      (List.range ((e - start) / delta + 1)).map (fun k => start + delta * k) :=
  perdelta_eq_map_range_aux delta hd (e - start) start e rfl hse

theorem perdelta_length (start e delta : Nat) (hd : 0 < delta) (hse : start ≤ e) :
    (perdelta start e delta).length = (e - start) / delta + 1 := by
  rw [perdelta_eq_map_range delta hd start e hse]
  simp

theorem perdelta_getD (start e delta : Nat) (hd : 0 < delta) (hse : start ≤ e)
    (n : Nat) (hn : n < (e - start) / delta + 1) :
    (perdelta start e delta).getD n 0 = start + delta * n := by
  rw [perdelta_eq_map_range delta hd start e hse]
  rw [List.getD_eq_getElem?_getD]
  rw [List.getElem?_map]
  simp [List.getElem?_range hn]

theorem perdelta_pairwise (start e delta : Nat) (hd : 0 < delta) :
    (perdelta start e delta).Pairwise (· < ·) := by
  rcases le_or_lt start e with hse | hse
  · rw [perdelta_eq_map_range delta hd start e hse]
    rw [List.pairwise_map]
    refine (List.pairwise_lt_range _).imp ?_
    exact fun hab => Nat.add_lt_add_left (mul_lt_mul_of_pos_left hab hd) start
  · rw [perdelta, dif_neg (by omega)]
    exact List.Pairwise.nil

theorem ssRight_eq_ssLeft_add_count {α : Type} [LinearOrder α] [Inhabited α] (xs : List α) (v : α) :
    ssRight xs v = ssLeft xs v + xs.count v := by
  induction xs with
  | nil => simp [ssLeft, ssRight]
  | cons x rest ih =>
    unfold ssLeft ssRight at *
    rcases lt_trichotomy x v with h | h | h
    · simp [List.countP_cons, List.count_cons, h, le_of_lt h, ne_of_lt h, ih]
      omega
    · subst h
      simp [List.countP_cons, List.count_cons, lt_irrefl, le_refl, ih]
      omega
    · simp [List.countP_cons, List.count_cons, not_lt.mpr (le_of_lt h), not_le.mpr h,
        ne_of_gt h, ih]

theorem ssLeft_lt_ssRight_iff_mem {α : Type} [LinearOrder α] [Inhabited α] (xs : List α) (v : α) :
    ssLeft xs v < ssRight xs v ↔ v ∈ xs := by
  rw [ssRight_eq_ssLeft_add_count]
  constructor
  · intro h
    have : 0 < xs.count v := by omega
    exact List.count_pos_iff.mp this
  · intro h
    have : 0 < xs.count v := List.count_pos_iff.mpr h
    omega

theorem insertOrd_of_le {α : Type} [LinearOrder α] [Inhabited α] (key : Nat → α) (i : Nat) (l : List Nat)
    (h : ∀ j ∈ l, key i ≤ key j) : insertOrd key i l = i :: l := by
  cases l with
  | nil => rfl
  | cons j rest =>
    unfold insertOrd
    rw [if_pos (h j (List.mem_cons_self j rest))]

theorem sortIdx_of_pairwise {α : Type} [LinearOrder α] [Inhabited α] (key : Nat → α) (l : List Nat)
    (h : l.Pairwise (fun i j => key i ≤ key j)) : sortIdx key l = l := by
  induction l with
  | nil => rfl
  | cons i rest ih =>
    unfold sortIdx
    rw [ih (List.Pairwise.of_cons h)]
    exact insertOrd_of_le key i rest (fun j hj => List.rel_of_pairwise_cons h hj)

theorem getD_pairwise_of_sorted {α : Type} [LinearOrder α] [Inhabited α] (xs : List α) (hs : xs.Pairwise (· < ·)) :
    (List.range xs.length).Pairwise
      (fun i j => xs.getD i default ≤ xs.getD j default) := by
  have hget := List.pairwise_iff_getElem.mp hs
  refine (List.pairwise_lt_range _).imp_of_mem ?_
  intro i j hi hj hij
  rw [List.mem_range] at hi hj
  rw [List.getD_eq_getElem xs default hi, List.getD_eq_getElem xs default hj]
  exact le_of_lt (hget i j hi hj hij)

theorem argsort_of_sorted {α : Type} [LinearOrder α] [Inhabited α] (xs : List α) (hs : xs.Pairwise (· < ·)) :
    argsort xs = List.range xs.length :=
  sortIdx_of_pairwise _ _ (getD_pairwise_of_sorted xs hs)

theorem map_getD_range {α : Type} [LinearOrder α] [Inhabited α] (xs : List α) :
    (List.range xs.length).map (fun i => xs.getD i default) = xs := by
  apply List.ext_getElem
  · simp
  · intro n h1 h2
    simp only [List.getElem_map, List.getElem_range]
    rw [List.getD_eq_getElem xs default h2]

theorem sortedBy_of_sorted {α : Type} [LinearOrder α] [Inhabited α] (xs : List α) (hs : xs.Pairwise (· < ·)) :
    sortedBy xs = xs := by
  unfold sortedBy
  rw [argsort_of_sorted xs hs, map_getD_range]

/-- On sorted duplicate-free inputs, `FindMatchingIndices` returns, on each
side, exactly the positions whose value occurs in the other array. -/
theorem FindMatchingIndices_sorted {α : Type} [LinearOrder α] [Inhabited α] (a b : List α)
    (ha : a.Pairwise (· < ·)) (hb : b.Pairwise (· < ·)) :
    FindMatchingIndices a b =
      ((List.range a.length).filter (fun j => decide (a.getD j default ∈ b)),
       (List.range b.length).filter (fun j => decide (b.getD j default ∈ a))) := by
  unfold FindMatchingIndices
  rw [sortedBy_of_sorted a ha, sortedBy_of_sorted b hb]
  have hfa : ∀ j ∈ List.range a.length,
      decide (ssLeft b (a.getD j default) < ssRight b (a.getD j default)) =
        decide (a.getD j default ∈ b) := by
    intro j _
    simp [decide_eq_decide, ssLeft_lt_ssRight_iff_mem]
  have hfb : ∀ j ∈ List.range b.length,
      decide (ssLeft a (b.getD j default) < ssRight a (b.getD j default)) =
        decide (b.getD j default ∈ a) := by
    intro j _
    simp [decide_eq_decide, ssLeft_lt_ssRight_iff_mem]
  rw [List.filter_congr hfa, List.filter_congr hfb]

theorem scatterIdx_length {β : Type} (idx : List Nat) (vals base : List β) :
    (scatterIdx base idx vals).length = base.length := by
  induction idx generalizing vals base with
  | nil => unfold scatterIdx; simp
  | cons i is ih =>
    cases vals with
    | nil => unfold scatterIdx; simp
    | cons v vs =>
      unfold scatterIdx
      rw [ih vs (base.set i v), List.length_set]

theorem getD_set_ne {β : Type} (l : List β) (i p : Nat) (v d : β) (h : i ≠ p) :
    (l.set i v).getD p d = l.getD p d := by
  rw [List.getD_eq_getElem?_getD, List.getD_eq_getElem?_getD, List.getElem?_set_ne h]

theorem getD_set_self {β : Type} (l : List β) (i : Nat) (v d : β) (h : i < l.length) :
    (l.set i v).getD i d = v := by
  rw [List.getD_eq_getElem?_getD, List.getElem?_set_self (by omega)]
  rfl

theorem scatterIdx_getD_of_not_mem {β : Type} (idx : List Nat) (vals base : List β) (p : Nat)
    (d : β) (h : p ∉ idx) :
    (scatterIdx base idx vals).getD p d = base.getD p d := by
  induction idx generalizing vals base with
  | nil => unfold scatterIdx; rfl
  | cons i is ih =>
    cases vals with
    | nil => unfold scatterIdx; rfl
    | cons v vs =>
      unfold scatterIdx
      rw [ih vs (base.set i v) (fun hm => h (List.mem_cons_of_mem i hm))]
      exact getD_set_ne base i p v d (fun he => h (he ▸ List.mem_cons_self i is))

theorem scatterIdx_getD_at {β : Type} (idx : List Nat) (vals base : List β) (k : Nat) (d : β)
    (hnd : idx.Nodup) (hk : k < idx.length) (hlen : idx.length ≤ vals.length)
    (hpos : idx.getD k 0 < base.length) :
    (scatterIdx base idx vals).getD (idx.getD k 0) d = vals.getD k d := by
  induction idx generalizing vals base k with
  | nil => simp at hk
  | cons i is ih =>
    cases vals with
    | nil => simp at hlen
    | cons v vs =>
      unfold scatterIdx
      cases k with
      | zero =>
        simp only [List.getD_cons_zero] at hpos ⊢
        rw [scatterIdx_getD_of_not_mem is vs _ i d (List.nodup_cons.mp hnd).1]
        exact getD_set_self base i v d hpos
      | succ k' =>
        simp only [List.getD_cons_succ] at hpos ⊢
        exact ih vs (base.set i v) k' (List.Nodup.of_cons hnd)
          (by simpa using hk) (by simpa using hlen) (by simpa using hpos)

theorem filter_interval_head (times : List Int) (hs : times.Pairwise (· < ·))
    (sv ev : Int) (hmem : sv ∈ times) (hse : sv ≤ ev) :
    (times.filter (fun t => decide (sv ≤ t) && decide (t ≤ ev))).head? = some sv := by
  induction times with
  | nil => simp at hmem
  | cons x rest ih =>
    have hx : ∀ y ∈ rest, x < y := fun y hy => List.rel_of_pairwise_cons hs hy
    rcases List.mem_cons.mp hmem with rfl | hmemr
    · rw [List.filter_cons, if_pos (by simp [hse])]
      rfl
    · have hxlt : x < sv := hx sv hmemr
      rw [List.filter_cons, if_neg (by simp; intro hc; omega)]
      exact ih (List.Pairwise.of_cons hs) hmemr

theorem filter_interval_getLast (times : List Int) (hs : times.Pairwise (· < ·))
    (sv ev : Int) (hmem : ev ∈ times) (hse : sv ≤ ev) :
    (times.filter (fun t => decide (sv ≤ t) && decide (t ≤ ev))).getLast? = some ev := by
  induction times with
  | nil => simp at hmem
  | cons x rest ih =>
    have hx : ∀ y ∈ rest, x < y := fun y hy => List.rel_of_pairwise_cons hs hy
    rcases List.mem_cons.mp hmem with rfl | hmemr
    · have hrest : rest.filter (fun t => decide (sv ≤ t) && decide (t ≤ ev)) = [] := by
        rw [List.filter_eq_nil_iff]
        intro y hy
        have := hx y hy
        simp
        intro hc
        omega
      rw [List.filter_cons, if_pos (by simp [hse]), hrest]
      rfl
    · have htl := ih (List.Pairwise.of_cons hs) hmemr
      have hnn : rest.filter (fun t => decide (sv ≤ t) && decide (t ≤ ev)) ≠ [] := by
        intro hc
        rw [hc] at htl
        simp at htl
      rw [List.filter_cons]
      by_cases hcx : (decide (sv ≤ x) && decide (x ≤ ev)) = true
      · rw [if_pos hcx]
        obtain ⟨y, ys, hys⟩ := List.exists_cons_of_ne_nil hnn
        rw [hys] at htl ⊢
        rw [List.getLast?_cons_cons]
        exact htl
      · rw [if_neg hcx]
        exact htl

theorem filter_range_getD_map {α : Type} [Inhabited α] (xs : List α) (p : α → Bool) :
    ((List.range xs.length).filter (fun j => p (xs.getD j default))).map
      (fun j => xs.getD j default) = xs.filter p := by
  induction xs with
  | nil => simp
  | cons x rest ih =>
    have h1 : List.range (x :: rest).length =
        0 :: (List.range rest.length).map Nat.succ := by
      rw [List.length_cons, List.range_succ_eq_map]
    rw [h1, List.filter_cons]
    have hfun1 : ((fun j => p ((x :: rest).getD j default)) ∘ Nat.succ) =
        (fun j => p (rest.getD j default)) := by
      funext j
      simp
    have hfun2 : ((fun j => (x :: rest).getD j default) ∘ Nat.succ) =
        (fun j => rest.getD j default) := by
      funext j
      simp
    by_cases hp : p x
    · rw [if_pos (by simpa using hp)]
      rw [List.map_cons, List.filter_map, List.map_map, hfun1, hfun2, ih]
      simp [hp, List.filter_cons]
    · rw [if_neg (by simpa using hp)]
      rw [List.filter_map, List.map_map, hfun1, hfun2, ih]
      simp [hp, List.filter_cons]

theorem sorted_eq_of_mem_iff {α : Type} [LinearOrder α] :
    ∀ (l₁ l₂ : List α), l₁.Pairwise (· < ·) → l₂.Pairwise (· < ·) →
      (∀ x, x ∈ l₁ ↔ x ∈ l₂) → l₁ = l₂ := by
  intro l₁
  induction l₁ with
  | nil =>
    intro l₂ _ _ hm
    cases l₂ with
    | nil => rfl
    | cons b t₂ =>
      have := (hm b).mpr (List.mem_cons_self b t₂)
      simp at this
  | cons a t₁ ih =>
    intro l₂ h₁ h₂ hm
    cases l₂ with
    | nil =>
      have := (hm a).mp (List.mem_cons_self a t₁)
      simp at this
    | cons b t₂ =>
      have hat₁ : ∀ y ∈ t₁, a < y := fun y hy => List.rel_of_pairwise_cons h₁ hy
      have hbt₂ : ∀ y ∈ t₂, b < y := fun y hy => List.rel_of_pairwise_cons h₂ hy
      have hab : a = b := by
        have ha2 := (hm a).mp (List.mem_cons_self a t₁)
        have hb1 := (hm b).mpr (List.mem_cons_self b t₂)
        rcases List.mem_cons.mp ha2 with h | h
        · exact h
        · rcases List.mem_cons.mp hb1 with h' | h'
          · exact h'.symm
          · have hba : b < a := hbt₂ a h
            have hab' : a < b := hat₁ b h'
            exact absurd (hba.trans hab') (lt_irrefl b)
      subst hab
      have htm : ∀ x, x ∈ t₁ ↔ x ∈ t₂ := by
        intro x
        constructor
        · intro hx
          have := (hm x).mp (List.mem_cons_of_mem a hx)
          rcases List.mem_cons.mp this with h | h
          · subst h
            exact absurd (hat₁ x hx) (lt_irrefl x)
          · exact h
        · intro hx
          have := (hm x).mpr (List.mem_cons_of_mem a hx)
          rcases List.mem_cons.mp this with h | h
          · subst h
            exact absurd (hbt₂ x hx) (lt_irrefl x)
          · exact h
      rw [ih t₂ (List.Pairwise.of_cons h₁) (List.Pairwise.of_cons h₂) htm]

theorem map_getD_lt {β γ : Type} (f : β → γ) (l : List β) (k : Nat) (db : β)
    (dc : γ) (hk : k < l.length) : (l.map f).getD k dc = f (l.getD k db) := by
  rw [List.getD_eq_getElem _ _ (by simpa using hk), List.getElem_map,
    List.getD_eq_getElem _ _ hk]

theorem headD_mem {l : List Nat} (h : l ≠ []) : l.headD 0 ∈ l := by
  cases l with
  | nil => exact absurd rfl h
  | cons x rest => exact List.mem_cons_self x rest

theorem getLastD_mem {l : List Nat} (h : l ≠ []) : l.getLastD 0 ∈ l := by
  induction l with
  | nil => exact absurd rfl h
  | cons x rest ih =>
    cases rest with
    | nil => simp
    | cons y t =>
      have := ih (by simp)
      simpa using Or.inr this

/-! ## Claim theorems -/

theorem claim_C1_counterexample :
    (∀ t ∈ c1CexDS.times, yearStart 2007 ≤ t ∧ t < yearStart 2008) ∧
    c1CexDS.time_step = 30 ∧
    isLeap 2007 = false ∧
    (write_csv_oneflux c1CexDS).map Prod.fst = [2006] ∧
    2007 ∉ (write_csv_oneflux c1CexDS).map Prod.fst := by
  have h1 : yearOf (yearStart 2007 - 30) = 2006 :=
    yearOf_spec (by decide) (by decide)
  have hyears : onefluxYears c1CexDS = [2006] := by
    unfold onefluxYears
    have e1 : c1CexDS.times.headD 0 - c1CexDS.time_step = yearStart 2007 - 30 := rfl
    have e2 : c1CexDS.times.getLastD 0 - c1CexDS.time_step =
      yearStart 2007 - 30 := rfl
    rw [e1, e2, h1]
    decide
  have hmain : (write_csv_oneflux c1CexDS).map Prod.fst = [2006] := by
    unfold write_csv_oneflux
    rw [List.map_map, hyears]
    rfl
  refine ⟨by decide, rfl, by decide, hmain, ?_⟩
  rw [hmain]
  decide

/-- C1 (amended): for a dataset with declared 30-minute step whose timestamps,
shifted back by one step per the end-of-interval convention, all lie within a
single non-leap year `y` (equivalently, every timestamp `t` satisfies
`yearStart y + 30 ≤ t < yearStart (y+1) + 30`), `write_csv_oneflux` produces
exactly one output file, for year `y`; its data section has exactly 17520
rows, one per grid timestamp `Jan 1 00:30, 01:00, ..., Jan 1 00:00` of the
next year inclusive; and every row whose grid timestamp does not occur in the
dataset's time coordinate carries the sentinel `-9999` in every variable
column, written through the same per-variable format as ordinary values. -/
theorem claim_C1_amended (ds : FluxDS) (y : Nat)
    (hstep : ds.time_step = 30)
    (hleap : isLeap y = false)
    (hne : ds.times ≠ [])
    (hsort : ds.times.Pairwise (· < ·))
    (hcov : ∀ t ∈ ds.times, yearStart y + 30 ≤ t ∧ t < yearStart (y + 1) + 30) :
    write_csv_oneflux ds = [(y, write_csv_oneflux_year ds y)] ∧
    (write_csv_oneflux_year ds y).length = 17520 ∧
    (∀ n, n < 17520 → (onefluxGrid y 30).getD n 0 = yearStart y + 30 * (n + 1)) ∧
    (∀ n, n < 17520 → (yearStart y + 30 * (n + 1)) ∉ ds.times →
      ((write_csv_oneflux_year ds y).getD n []).drop 2 =
        (onefluxVars ds).map (fun c => fmtCell c.fmt FLUX_MISSING_VALUE)) := by
  have hd0 : (default : Nat) = 0 := rfl
  have hdays : daysInYear y = 365 := by
    unfold daysInYear
    simp [hleap]
  have hss : yearStart (y + 1) = yearStart y + 525600 := by
    rw [yearStart_succ, hdays]
  have hse : yearStart y + 30 ≤ yearStart (y + 1) := by omega
  have hK : (yearStart (y + 1) - (yearStart y + 30)) / 30 + 1 = 17520 := by
    have : yearStart (y + 1) - (yearStart y + 30) = 525570 := by omega
    rw [this]
  have hlen : (onefluxGrid y 30).length = 17520 := by
    unfold onefluxGrid
    rw [perdelta_length _ _ _ (by norm_num) hse, hK]
  have hgetD : ∀ n, n < 17520 →
      (onefluxGrid y 30).getD n 0 = yearStart y + 30 * (n + 1) := by
    intro n hn
    unfold onefluxGrid
    rw [perdelta_getD _ _ _ (by norm_num) hse n (by rw [hK]; exact hn)]
    ring
  have hgsort : (onefluxGrid y 30).Pairwise (· < ·) :=
    perdelta_pairwise _ _ _ (by norm_num)
  have hfmi := FindMatchingIndices_sorted (onefluxGrid y 30) ds.times hgsort hsort
  simp only [hd0] at hfmi
  have hys : yearOf (ds.times.headD 0 - 30) = y := by
    obtain ⟨hlo, hhi⟩ := hcov _ (headD_mem hne)
    exact yearOf_spec (by omega) (by omega)
  have hye : yearOf (ds.times.getLastD 0 - 30) = y := by
    obtain ⟨hlo, hhi⟩ := hcov _ (getLastD_mem hne)
    exact yearOf_spec (by omega) (by omega)
  have hyears : onefluxYears ds = [y] := by
    unfold onefluxYears
    rw [hstep, hys, hye]
    have : y + 1 - y = 1 := by omega
    rw [this]
    rfl
  refine ⟨?_, ?_, hgetD, ?_⟩
  · unfold write_csv_oneflux
    rw [hyears]
    rfl
  · unfold write_csv_oneflux_year
    rw [hstep, List.length_map, List.length_range, hlen]
  · intro n hn hnotin
    have hnot_a1 : n ∉ (FindMatchingIndices (onefluxGrid y 30) ds.times).1 := by
      rw [hfmi]
      intro hmem
      rw [List.mem_filter] at hmem
      obtain ⟨_, hpred⟩ := hmem.imp id of_decide_eq_true
      exact hnotin (by rw [← hgetD n hn]; exact hpred)
    unfold write_csv_oneflux_year
    rw [hstep]
    have hnlt : n < (List.range (onefluxGrid y 30).length).length := by
      rw [List.length_range, hlen]
      exact hn
    have hrow := map_getD_lt (fun n =>
        [toString ((onefluxGrid y 30).getD n 0 - 30),
         toString ((onefluxGrid y 30).getD n 0)] ++
          (onefluxVars ds).map (fun c =>
            fmtCell c.fmt ((fillYear c.name (onefluxGrid y 30).length
              (FindMatchingIndices (onefluxGrid y 30) ds.times).1
              (FindMatchingIndices (onefluxGrid y 30) ds.times).2
              (ds.data c.name)).getD n 0)))
      (List.range (onefluxGrid y 30).length) n 0 [] hnlt
    simp only at hrow
    rw [hrow]
    have hidx : (List.range (onefluxGrid y 30).length).getD n 0 = n := by
      rw [List.getD_eq_getElem _ _ hnlt]
      simp
    rw [hidx]
    have hdrop : ∀ (s₁ s₂ : String) (l : List String),
        ([s₁, s₂] ++ l).drop 2 = l := fun _ _ _ => rfl
    rw [hdrop]
    apply List.map_congr_left
    intro c _
    have hfill : (fillYear c.name (onefluxGrid y 30).length
        (FindMatchingIndices (onefluxGrid y 30) ds.times).1
        (FindMatchingIndices (onefluxGrid y 30) ds.times).2
        (ds.data c.name)).getD n 0 = FLUX_MISSING_VALUE := by
      have hrepl : (List.replicate (onefluxGrid y 30).length
          FLUX_MISSING_VALUE).getD n 0 = FLUX_MISSING_VALUE := by
        rw [List.getD_eq_getElem _ _ (by rw [List.length_replicate, hlen]; exact hn)]
        simp
      unfold fillYear
      by_cases hvpd : c.name = "VPD"
      · rw [if_pos hvpd, scatterIdx_getD_of_not_mem _ _ _ n _ hnot_a1, hrepl]
      · rw [if_neg hvpd, scatterIdx_getD_of_not_mem _ _ _ n _ hnot_a1, hrepl]
    rw [hfill]

/-- C1 (witness): a dataset with one 30-minute record at `Jan 1 00:30` of
2007, exercising the amended exporter contract. -/
theorem claim_C1_amended_witness :
    write_csv_oneflux ⟨[yearStart 2007 + 30], ["Ta"], fun _ => [20], 30⟩ =
      [(2007, write_csv_oneflux_year
        ⟨[yearStart 2007 + 30], ["Ta"], fun _ => [20], 30⟩ 2007)] ∧
    (write_csv_oneflux_year
      ⟨[yearStart 2007 + 30], ["Ta"], fun _ => [20], 30⟩ 2007).length = 17520 ∧
    (∀ n, n < 17520 →
      (onefluxGrid 2007 30).getD n 0 = yearStart 2007 + 30 * (n + 1)) ∧
    (∀ n, n < 17520 → (yearStart 2007 + 30 * (n + 1)) ∉
        (⟨[yearStart 2007 + 30], ["Ta"], fun _ => [20], 30⟩ : FluxDS).times →
      ((write_csv_oneflux_year
          ⟨[yearStart 2007 + 30], ["Ta"], fun _ => [20], 30⟩ 2007).getD n []).drop 2 =
        (onefluxVars ⟨[yearStart 2007 + 30], ["Ta"], fun _ => [20], 30⟩).map
          (fun c => fmtCell c.fmt FLUX_MISSING_VALUE)) :=
  claim_C1_amended ⟨[yearStart 2007 + 30], ["Ta"], fun _ => [20], 30⟩ 2007
    rfl (by decide) (by decide) (by simp) (by decide)

/-- C2 (counterexample): the filename `A_Daily.nc` ends in `.nc` and its last
underscore segment lowercases to the recognized label `daily`, yet
`get_catalog_items` derives the default key `30min`, not `daily` as the claim
states — the source additionally requires at least three segments. -/
theorem claim_C2_counterexample :
    strEndsWith "A_Daily.nc" ".nc" = true ∧
    lastLower "A_Daily.nc" = "daily" ∧
    lastLower "A_Daily.nc" ∈ AGG_LABELS ∧
    dataset_key "A_Daily.nc" = some "30min" ∧
    dataset_key "A_Daily.nc" ≠ some "daily" ∧
    dataset_key_spec "A_Daily.nc" = some "daily" := by
  decide

/-- C2 (amended): for every terminal dataset filename ending in `.nc`, the
derived key is the lowercased last underscore segment when the stem has at
least three segments and that segment matches a recognized label, and the
default key `30min` otherwise; in particular `AdelaideRiver_L6_Daily.nc`
yields `daily` and a filename with no recognized suffix yields `30min`. -/
theorem claim_C2_amended (name : String) (h : strEndsWith name ".nc" = true) :
    dataset_key name =
      some (if (stemParts name).length ≥ 3 ∧ lastLower name ∈ AGG_LABELS then
        lastLower name else DEFAULT_DATASET) := by
  unfold dataset_key
  rw [if_pos h]
  split <;> simp_all

/-- C2 (witness): the amended rule evaluated at `AdelaideRiver_L6_Daily.nc`. -/
theorem claim_C2_amended_witness :
    dataset_key "AdelaideRiver_L6_Daily.nc" = some "daily" ∧
    dataset_key "AdelaideRiver_L6.nc" = some "30min" := by
  constructor
  · rw [claim_C2_amended "AdelaideRiver_L6_Daily.nc" (by decide)]
    decide
  · rw [claim_C2_amended "AdelaideRiver_L6.nc" (by decide)]
    decide

/-- C3: on strictly increasing (duplicate-free) timestamp arrays,
`FindMatchingIndices` returns index arrays of equal length whose indexed
elements agree pairwise, and the matched elements are exactly the
set-intersection of the two arrays. -/
theorem claim_C3 (a b : List ℤ) (ha : a.Pairwise (· < ·))
    (hb : b.Pairwise (· < ·)) :
    (FindMatchingIndices a b).1.length = (FindMatchingIndices a b).2.length ∧
    (∀ k, k < (FindMatchingIndices a b).1.length →
      a.getD ((FindMatchingIndices a b).1.getD k 0) 0 =
        b.getD ((FindMatchingIndices a b).2.getD k 0) 0) ∧
    (∀ v : ℤ, (v ∈ a ∧ v ∈ b) ↔
      ∃ k, k < (FindMatchingIndices a b).1.length ∧
        a.getD ((FindMatchingIndices a b).1.getD k 0) 0 = v) := by
  have hd : (default : ℤ) = 0 := rfl
  rw [FindMatchingIndices_sorted a b ha hb]
  simp only [hd]
  have hA := filter_range_getD_map a (fun x => decide (x ∈ b))
  have hB := filter_range_getD_map b (fun x => decide (x ∈ a))
  simp only [hd] at hA hB
  have hAB : a.filter (fun x => decide (x ∈ b)) =
      b.filter (fun x => decide (x ∈ a)) := by
    apply sorted_eq_of_mem_iff _ _ (List.Pairwise.filter _ ha)
      (List.Pairwise.filter _ hb)
    intro x
    simp only [List.mem_filter, decide_eq_true_eq]
    constructor
    · exact fun ⟨h1, h2⟩ => ⟨h2, h1⟩
    · exact fun ⟨h1, h2⟩ => ⟨h2, h1⟩
  have hlen : ((List.range a.length).filter
        (fun j => decide (a.getD j 0 ∈ b))).length =
      ((List.range b.length).filter
        (fun j => decide (b.getD j 0 ∈ a))).length := by
    have e1 := congrArg List.length hA
    have e2 := congrArg List.length hB
    rw [List.length_map] at e1 e2
    rw [e1, e2, hAB]
  refine ⟨hlen, ?_, ?_⟩
  · intro k hk
    have hk2 : k < ((List.range b.length).filter
        (fun j => decide (b.getD j 0 ∈ a))).length := by
      rw [← hlen]
      exact hk
    have e1 := map_getD_lt (fun j => a.getD j 0)
      ((List.range a.length).filter (fun j => decide (a.getD j 0 ∈ b))) k 0 0 hk
    have e2 := map_getD_lt (fun j => b.getD j 0)
      ((List.range b.length).filter (fun j => decide (b.getD j 0 ∈ a))) k 0 0 hk2
    simp only at e1 e2
    rw [← e1, ← e2, hA, hB, hAB]
  · intro v
    constructor
    · rintro ⟨hva, hvb⟩
      have hmemf : v ∈ ((List.range a.length).filter
          (fun j => decide (a.getD j 0 ∈ b))).map (fun j => a.getD j 0) := by
        rw [hA]
        simp only [List.mem_filter, decide_eq_true_eq]
        exact ⟨hva, hvb⟩
      obtain ⟨i, hi, hgi⟩ := List.mem_iff_getElem.mp hmemf
      have hi' : i < ((List.range a.length).filter
          (fun j => decide (a.getD j 0 ∈ b))).length := by
        simpa using hi
      refine ⟨i, hi', ?_⟩
      have hml := map_getD_lt (fun j => a.getD j 0)
        ((List.range a.length).filter (fun j => decide (a.getD j 0 ∈ b))) i 0 0 hi'
      simp only at hml
      rw [← hml, List.getD_eq_getElem _ _ hi]
      exact hgi
    · rintro ⟨k, hk, hv⟩
      have e1 := map_getD_lt (fun j => a.getD j 0)
        ((List.range a.length).filter (fun j => decide (a.getD j 0 ∈ b))) k 0 0 hk
      simp only at e1
      have hkm : k < (((List.range a.length).filter
          (fun j => decide (a.getD j 0 ∈ b))).map (fun j => a.getD j 0)).length := by
        simpa using hk
      have hmem : (((List.range a.length).filter
            (fun j => decide (a.getD j 0 ∈ b))).map (fun j => a.getD j 0)).getD k 0 ∈
          ((List.range a.length).filter
            (fun j => decide (a.getD j 0 ∈ b))).map (fun j => a.getD j 0) := by
        rw [List.getD_eq_getElem _ _ hkm]
        exact List.getElem_mem hkm
      rw [e1, hv] at hmem
      rw [hA] at hmem
      have := List.mem_filter.mp hmem
      exact ⟨this.1, by simpa using this.2⟩

/-- C3 (witness): the matching on the concrete arrays `[1, 3, 5]` and
`[3, 5, 7]`. -/
theorem claim_C3_witness :
    (FindMatchingIndices ([1, 3, 5] : List ℤ) [3, 5, 7]).1.length =
      (FindMatchingIndices ([1, 3, 5] : List ℤ) [3, 5, 7]).2.length ∧
    (∀ k, k < (FindMatchingIndices ([1, 3, 5] : List ℤ) [3, 5, 7]).1.length →
      ([1, 3, 5] : List ℤ).getD
          ((FindMatchingIndices ([1, 3, 5] : List ℤ) [3, 5, 7]).1.getD k 0) 0 =
        ([3, 5, 7] : List ℤ).getD
          ((FindMatchingIndices ([1, 3, 5] : List ℤ) [3, 5, 7]).2.getD k 0) 0) ∧
    (∀ v : ℤ, (v ∈ ([1, 3, 5] : List ℤ) ∧ v ∈ ([3, 5, 7] : List ℤ)) ↔
      ∃ k, k < (FindMatchingIndices ([1, 3, 5] : List ℤ) [3, 5, 7]).1.length ∧
        ([1, 3, 5] : List ℤ).getD
          ((FindMatchingIndices ([1, 3, 5] : List ℤ) [3, 5, 7]).1.getD k 0) 0 = v) :=
  claim_C3 [1, 3, 5] [3, 5, 7] (by decide) (by decide)

/-- C4: for a nonempty request of existing variables with
`keep_qcflags = True`, the selection succeeds and the returned variable set
is exactly the requested set united with, for each requested non-QC base
variable, its `<base>_QCFlag` pair when present in the dataset — with no
duplicates, also when a base variable and its own QC flag are both
requested. -/
theorem claim_C4 (site : String) (dsVars : List String) (times : List Int)
    (parse : String → Option Int) (vs : List String) (hne : vs ≠ [])
    (hsub : ∀ v ∈ vs, v ∈ dsVars) :
    ∃ r, get_subset site dsVars times parse (some vs) TBound.none TBound.none true =
        .ok (r, times) ∧
      r.Nodup ∧
      (∀ x, x ∈ r ↔ (x ∈ vs ∨
        ∃ b ∈ vs, isQCname b = false ∧ x = strCat b "_QCFlag" ∧ x ∈ dsVars)) := by
  have hfind : vs.find? (fun v => !(dsVars.contains v)) = Option.none := by
    rw [List.find?_eq_none]
    intro x hx
    simp [hsub x hx]
  have hnev : vs.isEmpty = false := by
    cases vs
    · simp at hne
    · simp
  refine ⟨(vs ++ vs.filterMap (fun v =>
      if isQCname v then Option.none
      else if dsVars.contains (strCat v "_QCFlag") then some (strCat v "_QCFlag")
      else Option.none)).dedup, ?_, ?_, ?_⟩
  · simp only [get_subset, subsetSelect, sliceTimes]
    rw [if_neg (by simp [hnev]), hfind]
    rfl
  · exact List.nodup_dedup _
  · intro x
    rw [List.mem_dedup, List.mem_append, List.mem_filterMap]
    constructor
    · rintro (hx | ⟨b, hb, hfb⟩)
      · exact Or.inl hx
      · refine Or.inr ⟨b, hb, ?_⟩
        by_cases hq : isQCname b
        · simp [hq] at hfb
        · simp [hq] at hfb
          exact ⟨by simpa using hq, hfb.2.symm, hfb.2 ▸ hfb.1⟩
    · rintro (hx | ⟨b, hb, hq, rfl, hc⟩)
      · exact Or.inl hx
      · refine Or.inr ⟨b, hb, ?_⟩
        simp [hq, hc]

/-- C4 (witness): requesting a base variable together with its own QC flag
from a dataset containing both. -/
theorem claim_C4_witness :
    ∃ r, get_subset "SiteA" ["Ta", "Ta_QCFlag", "Fe"] [0, 1800000]
        (fun _ => Option.none) (some ["Ta", "Ta_QCFlag"]) TBound.none TBound.none
        true = .ok (r, [0, 1800000]) ∧
      r.Nodup ∧
      (∀ x, x ∈ r ↔ (x ∈ ["Ta", "Ta_QCFlag"] ∨
        ∃ b ∈ ["Ta", "Ta_QCFlag"], isQCname b = false ∧ x = strCat b "_QCFlag" ∧
          x ∈ ["Ta", "Ta_QCFlag", "Fe"])) :=
  claim_C4 "SiteA" ["Ta", "Ta_QCFlag", "Fe"] [0, 1800000] (fun _ => Option.none)
    ["Ta", "Ta_QCFlag"] (by decide) (by decide)

/-- C5: when a time bound is given to `get_subset`: an absent bound defaults
to the dataset's first (for `start`) or last (for `end`) timestamp truncated
to second precision; a string bound the parser rejects fails the call with
the invalid-format error; and with resolved bounds the result's time axis is
the closed interval `[start, end]` — every kept timestamp lies between the
bounds, and the first/last kept timestamps equal the bounds whenever those
bounds occur exactly in the source time coordinate. -/
theorem claim_C5 (site : String) (dsVars : List String)
    (parse : String → Option Int) (times : List Int)
    (hsort : times.Pairwise (· < ·)) (hne : times ≠ []) (kq : Bool) :
    (∀ e, tbTruthy e = true →
      get_subset site dsVars times parse Option.none TBound.none e kq =
        get_subset site dsVars times parse Option.none
          (TBound.dt (truncSec (times.headD 0))) e kq) ∧
    (∀ s, tbTruthy s = true →
      get_subset site dsVars times parse Option.none s TBound.none kq =
        get_subset site dsVars times parse Option.none s
          (TBound.dt (truncSec (times.getLastD 0))) kq) ∧
    (∀ str e, str.data.isEmpty = false → parse str = Option.none →
      get_subset site dsVars times parse Option.none (TBound.str str) e kq =
        .error (strCat "Invalid ISO-format start time " str)) ∧
    (∀ t str, parse str = Option.none →
      get_subset site dsVars times parse Option.none (TBound.dt t)
          (TBound.str str) kq =
        .error (strCat "Invalid ISO-format end time " str)) ∧
    (∀ sv ev,
      get_subset site dsVars times parse Option.none (TBound.dt sv)
          (TBound.dt ev) kq =
        .ok (dsVars, times.filter (fun t => decide (sv ≤ t) && decide (t ≤ ev))) ∧
      (∀ t ∈ times.filter (fun t => decide (sv ≤ t) && decide (t ≤ ev)),
        sv ≤ t ∧ t ≤ ev) ∧
      (sv ∈ times → sv ≤ ev →
        (times.filter (fun t => decide (sv ≤ t) && decide (t ≤ ev))).head? =
          some sv) ∧
      (ev ∈ times → sv ≤ ev →
        (times.filter (fun t => decide (sv ≤ t) && decide (t ≤ ev))).getLast? =
          some ev)) := by
  refine ⟨?_, ?_, ?_, ?_, ?_⟩
  · intro e he
    simp only [get_subset, subsetSelect, sliceTimes, he, Bool.or_true]
    rfl
  · intro s hs
    simp only [get_subset, subsetSelect, sliceTimes, hs, Bool.true_or]
    rfl
  · intro str e hstr hparse
    simp only [get_subset, subsetSelect, sliceTimes, resolveStart, tbTruthy, hstr,
      Bool.not_false, Bool.true_or, hparse]
    rfl
  · intro t str hparse
    simp only [get_subset, subsetSelect, sliceTimes, resolveStart, resolveEnd,
      tbTruthy, hparse, Bool.true_or]
    rfl
  · intro sv ev
    refine ⟨rfl, ?_, ?_, ?_⟩
    · intro t ht
      have := List.of_mem_filter ht
      simpa using this
    · exact fun hmem hse => filter_interval_head times hsort sv ev hmem hse
    · exact fun hmem hse => filter_interval_getLast times hsort sv ev hmem hse

/-- C5 (witness): the slicing contract evaluated on a concrete three-point
time axis. -/
theorem claim_C5_witness :
    (∀ e, tbTruthy e = true →
      get_subset "SiteA" ["Ta"] [1500, 601000, 1202000] (fun _ => Option.none)
          Option.none TBound.none e true =
        get_subset "SiteA" ["Ta"] [1500, 601000, 1202000] (fun _ => Option.none)
          Option.none (TBound.dt (truncSec ([1500, 601000, 1202000].headD 0)))
          e true) ∧
    (∀ s, tbTruthy s = true →
      get_subset "SiteA" ["Ta"] [1500, 601000, 1202000] (fun _ => Option.none)
          Option.none s TBound.none true =
        get_subset "SiteA" ["Ta"] [1500, 601000, 1202000] (fun _ => Option.none)
          Option.none s
          (TBound.dt (truncSec ([1500, 601000, 1202000].getLastD 0))) true) ∧
    (∀ str e, str.data.isEmpty = false →
      (fun (_ : String) => (Option.none : Option Int)) str = Option.none →
      get_subset "SiteA" ["Ta"] [1500, 601000, 1202000] (fun _ => Option.none)
          Option.none (TBound.str str) e true =
        .error (strCat "Invalid ISO-format start time " str)) ∧
    (∀ t str, (fun (_ : String) => (Option.none : Option Int)) str = Option.none →
      get_subset "SiteA" ["Ta"] [1500, 601000, 1202000] (fun _ => Option.none)
          Option.none (TBound.dt t) (TBound.str str) true =
        .error (strCat "Invalid ISO-format end time " str)) ∧
    (∀ sv ev,
      get_subset "SiteA" ["Ta"] [1500, 601000, 1202000] (fun _ => Option.none)
          Option.none (TBound.dt sv) (TBound.dt ev) true =
        .ok (["Ta"], [1500, 601000, 1202000].filter
          (fun t => decide (sv ≤ t) && decide (t ≤ ev))) ∧
      (∀ t ∈ [1500, 601000, 1202000].filter
          (fun t => decide (sv ≤ t) && decide (t ≤ ev)), sv ≤ t ∧ t ≤ ev) ∧
      (sv ∈ [1500, 601000, 1202000] → sv ≤ ev →
        ([1500, 601000, 1202000].filter
          (fun t => decide (sv ≤ t) && decide (t ≤ ev))).head? = some sv) ∧
      (ev ∈ [1500, 601000, 1202000] → sv ≤ ev →
        ([1500, 601000, 1202000].filter
          (fun t => decide (sv ≤ t) && decide (t ≤ ev))).getLast? = some ev)) :=
  claim_C5 "SiteA" ["Ta"] (fun _ => Option.none) [1500, 601000, 1202000]
    (by decide) (by decide) true

/-- C6: whenever the requested variable list contains at least one name
missing from the dataset, `get_subset` fails with the not-found error naming
an actually-missing variable and the site (unknown variables are never
silently dropped). -/
theorem claim_C6 (site : String) (dsVars : List String) (times : List Int)
    (parse : String → Option Int) (vs : List String) (s e : TBound) (kq : Bool)
    (w : String) (hw : w ∈ vs) (hmiss : w ∉ dsVars) :
    ∃ v, v ∈ vs ∧ v ∉ dsVars ∧
      get_subset site dsVars times parse (some vs) s e kq =
        .error (subsetNotFoundMsg site v) := by
  have hfind : (vs.find? (fun v => !(dsVars.contains v))).isSome := by
    rw [List.find?_isSome]
    exact ⟨w, hw, by simp [hmiss]⟩
  obtain ⟨v, hv⟩ := Option.isSome_iff_exists.mp hfind
  have hvmem : v ∈ vs := List.mem_of_find?_eq_some hv
  have hvp := List.find?_some hv
  have hvnot : v ∉ dsVars := by simpa using hvp
  have hne : vs.isEmpty = false := by
    cases vs
    · simp at hw
    · simp
  refine ⟨v, hvmem, hvnot, ?_⟩
  simp only [get_subset, subsetSelect]
  rw [if_neg (by simp [hne]), hv]

/-- C6 (witness): requesting the unknown variable `Qa`. -/
theorem claim_C6_witness :
    ∃ v, v ∈ ["Qa"] ∧ v ∉ (["Ta"] : List String) ∧
      get_subset "SiteA" ["Ta"] [0] (fun _ => Option.none) (some ["Qa"])
        TBound.none TBound.none true = .error (subsetNotFoundMsg "SiteA" v) :=
  claim_C6 "SiteA" ["Ta"] [0] (fun _ => Option.none) ["Qa"] TBound.none
    TBound.none true "Qa" (by decide) (by decide)

/-- C7: during the fixed-calendar copy step, the variable `VPD` — and, among
the whitelisted variables, only `VPD` (which occurs exactly once in the
whitelist) — has its copied values divided by 10; every other variable's
values are copied unchanged from the source onto the matched grid
positions. -/
theorem claim_C7 (nrecs : Nat) (a1 b1 : List Nat) (src : List ℚ)
    (hnd : a1.Nodup) (hlen : a1.length ≤ b1.length)
    (hbound : ∀ i ∈ a1, i < nrecs) (k : Nat) (hk : k < a1.length) :
    (fillYear "VPD" nrecs a1 b1 src).getD (a1.getD k 0) 0 =
      (src.getD (b1.getD k 0) 0) / 10 ∧
    (∀ c ∈ ONEFLUX_VARIABLES_CFG, c.name ≠ "VPD" →
      (fillYear c.name nrecs a1 b1 src).getD (a1.getD k 0) 0 =
        src.getD (b1.getD k 0) 0) ∧
    (ONEFLUX_VARIABLES_CFG.filter (fun c => c.name == "VPD")).length = 1 ∧
    (ONEFLUX_VARIABLES_CFG.map OFVar.name).contains "VPD" = true := by
  have hmem : a1.getD k 0 ∈ a1 := by
    rw [List.getD_eq_getElem a1 0 hk]
    exact a1.getElem_mem hk
  have hpos : a1.getD k 0 < (List.replicate nrecs FLUX_MISSING_VALUE).length := by
    rw [List.length_replicate]
    exact hbound _ hmem
  have hglen : (gatherIdx src b1).length = b1.length := by
    unfold gatherIdx
    simp
  have hklt : k < b1.length := by omega
  have hb1 : b1[k]? = some (b1.getD k 0) := by
    rw [List.getElem?_eq_getElem hklt, List.getD_eq_getElem b1 0 hklt]
  have hb : (gatherIdx src b1)[k]? = some (src.getD (b1.getD k 0) 0) := by
    unfold gatherIdx
    rw [List.getElem?_map, hb1]
    rfl
  refine ⟨?_, ?_, by decide, by decide⟩
  · unfold fillYear
    rw [if_pos rfl]
    rw [scatterIdx_getD_at a1 _ _ k 0 hnd hk (by simp [hglen]; omega) hpos]
    rw [List.getD_eq_getElem?_getD, List.getElem?_map, hb]
    rfl
  · intro c _ hcname
    unfold fillYear
    rw [if_neg hcname]
    rw [scatterIdx_getD_at a1 _ _ k 0 hnd hk (by rw [hglen]; omega) hpos]
    rw [List.getD_eq_getElem?_getD, hb]
    rfl

/-- C7 (witness): the conversion rule at a concrete matching. -/
theorem claim_C7_witness :
    (fillYear "VPD" 4 [1, 2] [0, 1] [(3 : ℚ), 7]).getD ([1, 2].getD 0 0) 0 =
      (([(3 : ℚ), 7]).getD ([0, 1].getD 0 0) 0) / 10 ∧
    (∀ c ∈ ONEFLUX_VARIABLES_CFG, c.name ≠ "VPD" →
      (fillYear c.name 4 [1, 2] [0, 1] [(3 : ℚ), 7]).getD ([1, 2].getD 0 0) 0 =
        ([(3 : ℚ), 7]).getD ([0, 1].getD 0 0) 0) ∧
    (ONEFLUX_VARIABLES_CFG.filter (fun c => c.name == "VPD")).length = 1 ∧
    (ONEFLUX_VARIABLES_CFG.map OFVar.name).contains "VPD" = true :=
  claim_C7 4 [1, 2] [0, 1] [(3 : ℚ), 7] (by decide) (by decide)
    (by decide) 0 (by decide)

/-- C8 (counterexample): calling `export_as_excel` with the bad filename
`out.txt` fails, but the error is the bare extension message — it is not the
export domain error (its text does not even contain the wrapper prefix),
because the extension check sits outside the `try` block; so not every
exporter failure is wrapped as the claim states. -/
theorem claim_C8_counterexample :
    export_as_excel ⟨Except.ok ["2024_v1"], Except.ok (), Except.ok ()⟩
        "out.txt" "SiteA" (some "2024_v1") =
      .error "Filename out.txt has invalid excel extension: must end with \x27.xlsx\x27." ∧
    strStartsWith
      "Filename out.txt has invalid excel extension: must end with \x27.xlsx\x27."
      "Export dataset as Excel Workbook failed: " = false ∧
    hasSubstr
      "Filename out.txt has invalid excel extension: must end with \x27.xlsx\x27.".data
      "Export dataset as Excel Workbook failed: ".data = false := by
  refine ⟨by rfl, by decide, by decide⟩

/-- C8 (amended): every failure of `export_oneflux_csv` is wrapped into the
single domain error `Export dataset in oneflux format failed: <original>`;
for `export_as_excel` the failures raised inside its `try` block (dataset
fetch and workbook write) are wrapped into
`Export dataset as Excel Workbook failed: <original>`, but the bad-extension
check (and the latest-version lookup) raise their own unwrapped errors. -/
theorem claim_C8_amended :
    (∀ (env : OneFluxEnv) (outdir site : String) (version : Option String)
        (p : String) (e' : String),
      (export_oneflux_csv env outdir site version p).1 = .error e' →
      ∃ m, e' = onefluxWrap m) ∧
    (∀ (env : ExcelEnv) (fn site version m : String),
      strEndsWith fn ".xlsx" = true →
      env.openDataset = .error m →
      export_as_excel env fn site (some version) = .error (excelWrap m)) ∧
    (∀ (env : ExcelEnv) (fn site version m : String),
      strEndsWith fn ".xlsx" = true →
      env.openDataset = .ok () → env.writeWorkbook = .error m →
      export_as_excel env fn site (some version) = .error (excelWrap m)) := by
  refine ⟨?_, ?_, ?_⟩
  · intro env outdir site version p e' h
    unfold export_oneflux_csv at h
    split at h
    · simp at h
      exact ⟨_, h.symm⟩
    · cases hm : env.makedirs with
      | error m =>
        rw [hm] at h
        simp at h
        exact ⟨_, h.symm⟩
      | ok u =>
        rw [hm] at h
        cases version with
        | some v =>
          simp only at h
          cases ho : env.openDataset with
          | error m =>
            rw [ho] at h
            simp at h
            exact ⟨_, h.symm⟩
          | ok u2 =>
            rw [ho] at h
            cases hw : env.writeOneflux with
            | error m =>
              rw [hw] at h
              simp at h
              exact ⟨_, h.symm⟩
            | ok files =>
              rw [hw] at h
              simp at h
        | none =>
          simp only at h
          cases hf : env.fetchVersions with
          | error m =>
            rw [hf] at h
            simp [Except.map] at h
            exact ⟨_, h.symm⟩
          | ok l =>
            rw [hf] at h
            simp only [Except.map] at h
            cases ho : env.openDataset with
            | error m =>
              rw [ho] at h
              simp at h
              exact ⟨_, h.symm⟩
            | ok u2 =>
              rw [ho] at h
              cases hw : env.writeOneflux with
              | error m =>
                rw [hw] at h
                simp at h
                exact ⟨_, h.symm⟩
              | ok files =>
                rw [hw] at h
                simp at h
  · intro env fn site version m hfn ho
    unfold export_as_excel
    rw [if_neg (by simp [hfn]), ho]
  · intro env fn site version m hfn ho hw
    unfold export_as_excel
    rw [if_neg (by simp [hfn]), ho, hw]

/-- C8 (witness): a dataset-open failure in each exporter, wrapped. -/
theorem claim_C8_amended_witness :
    export_as_excel ⟨Except.ok ["2024_v1"], Except.error "net down", Except.ok ()⟩
        "f.xlsx" "s" (some "2024_v1") = .error (excelWrap "net down") ∧
    (∃ m, onefluxWrap "boom" = onefluxWrap m) := by
  constructor
  · exact claim_C8_amended.2.1
      ⟨Except.ok ["2024_v1"], Except.error "net down", Except.ok ()⟩
      "f.xlsx" "s" "2024_v1" "net down" (by decide) rfl
  · exact claim_C8_amended.1
      ⟨Except.error "boom", Except.ok [], Except.ok (), Except.ok []⟩
      "o" "s" (some "2024_v1") "L3" (onefluxWrap "boom") (by rfl)

/-- C9: passing `variables = []` (falsy in Python) performs no variable
filtering at all — the result is identical to passing `variables = None`,
and with no time bounds the full dataset (all variables, all timestamps)
comes back with no error. -/
theorem claim_C9 (site : String) (dsVars : List String) (times : List Int)
    (parse : String → Option Int) (s e : TBound) (kq : Bool) :
    get_subset site dsVars times parse (some []) s e kq =
      get_subset site dsVars times parse Option.none s e kq ∧
    get_subset site dsVars times parse (some []) TBound.none TBound.none kq =
      .ok (dsVars, times) := by
  constructor
  · unfold get_subset subsetSelect
    simp
  · unfold get_subset subsetSelect sliceTimes tbTruthy
    simp

/-- C10: for every processing level other than `L3`/`L4`,
`export_oneflux_csv` fails with the wrapped domain error naming the invalid
level, and its effect log is empty — no directory creation, catalog fetch or
dataset open is attempted. -/
theorem claim_C10 (env : OneFluxEnv) (outdir site : String)
    (version : Option String) (p : String)
    (hp : p ∉ (["L3", "L4"] : List String)) :
    export_oneflux_csv env outdir site version p =
      (.error (onefluxWrap (strCat (strCat "Invalid processing level " p)
        ": only available for L3 or L4.")), []) := by
  unfold export_oneflux_csv
  rw [if_pos hp]

/-- C10 (witness): the rejection evaluated at processing level `L6`. -/
theorem claim_C10_witness :
    ("L6" : String) ∉ (["L3", "L4"] : List String) ∧
    export_oneflux_csv ⟨Except.ok (), Except.ok ["2024_v1"], Except.ok (),
        Except.ok []⟩ "out" "SiteA" Option.none "L6" =
      (.error (onefluxWrap (strCat (strCat "Invalid processing level " "L6")
        ": only available for L3 or L4.")), []) :=
  ⟨by decide, claim_C10 ⟨Except.ok (), Except.ok ["2024_v1"], Except.ok (),
    Except.ok []⟩ "out" "SiteA" Option.none "L6" (by decide)⟩

end TernFlux
